import Mathlib

/-
Verification of the rust-kbuild configuration core against its specification.
The definitions below are a shallow embedding of the Rust sources:
  src/kconfig/symbol.rs   (Symbol, SymbolTable and its methods)
  src/config/reader.rs    (ConfigReader::read, modelled over the list of lines)
  src/config/writer.rs    (ConfigWriter::write, modelled as the list of emitted lines)
  src/config/generator.rs (ConfigGenerator::generate_autoconf_h, as emitted lines)
Rust HashMap receivers are embedded as association lists of symbols keyed by
name; file I/O is embedded as lists of lines.
-/

namespace RustKbuild

/-- Modelled from the spec: the declared symbol types, from section 3
(SymbolType in src/kconfig/ast.rs, a file absent from src/):
Bool, Tristate, String, Int, Hex. -/
inductive SymbolType where
| bool
| tristate
| string
| int
| hex
deriving DecidableEq, Repr

/-- Symbol record, from src/kconfig/symbol.rs lines 4-10. -/
structure Symbol where
  name : String
  symbol_type : SymbolType
  value : Option String
  is_choice : Bool
deriving DecidableEq, Repr

/-- SymbolTable, from src/kconfig/symbol.rs lines 12-14. The HashMap of
symbols keyed by name is embedded as a list of symbols, looked up by the
name field; every table built through the API has pairwise distinct names. -/
structure SymbolTable where
  symbols : List Symbol
deriving DecidableEq, Repr

/-- SymbolTable::new, src/kconfig/symbol.rs lines 17-21. -/
def SymbolTable.new : SymbolTable := ⟨[]⟩

/-- HashMap::get on the embedded table: first symbol whose name matches. -/
def SymbolTable.lookup (t : SymbolTable) (n : String) : Option Symbol :=
  t.symbols.find? (fun s => s.name = n)

/-- SymbolTable::add_symbol, src/kconfig/symbol.rs lines 23-30:
entry(name).or_insert(Symbol with value None and is_choice false). -/
def SymbolTable.add_symbol (t : SymbolTable) (n : String) (ty : SymbolType) : SymbolTable :=
  if (t.lookup n).isSome then t
  else ⟨t.symbols ++ [⟨n, ty, none, false⟩]⟩

/-- Helper for set_value: update the value of the first symbol named n,
mirroring HashMap::get_mut on the unique entry for the key. -/
def updateValue (n v : String) : List Symbol → List Symbol
| [] => []
| s :: rest =>
    if s.name = n then ⟨s.name, s.symbol_type, some v, s.is_choice⟩ :: rest
    else s :: updateValue n v rest

/-- SymbolTable::set_value, src/kconfig/symbol.rs lines 32-36: if the name is
present, store the given string as the value; otherwise do nothing. -/
def SymbolTable.set_value (t : SymbolTable) (n v : String) : SymbolTable :=
  ⟨updateValue n v t.symbols⟩

/-- SymbolTable::get_value, src/kconfig/symbol.rs lines 38-40. -/
def SymbolTable.get_value (t : SymbolTable) (n : String) : Option String :=
  (t.lookup n).bind Symbol.value

/-- SymbolTable::is_enabled, src/kconfig/symbol.rs lines 42-48. -/
def SymbolTable.is_enabled (t : SymbolTable) (n : String) : Bool :=
  ((((t.lookup n).bind Symbol.value).map (fun v => decide (v = "y") || decide (v = "m"))).getD false)

/-- The mutating API of the symbol table: one add_symbol or set_value call. -/
inductive TableOp where
| add (n : String) (ty : SymbolType)
| set (n v : String)
deriving DecidableEq, Repr

/-- Apply one API call to the table. -/
def applyOp (t : SymbolTable) : TableOp → SymbolTable
| .add n ty => t.add_symbol n ty
| .set n v => t.set_value n v

/-- Run a sequence of API calls; runOps SymbolTable.new ops enumerates the
reachable states of the table. -/
def runOps (t : SymbolTable) (ops : List TableOp) : SymbolTable :=
  ops.foldl applyOp t

/-! String helpers mirroring the Rust std string operations used by the
config reader, writer and generator. They are written over the character
list of the string so that concrete evaluations reduce in the kernel.
The inputs in the repository are ASCII, for which these agree with Rust. -/

/-- Rust char::is_whitespace, restricted to the ASCII whitespace that can
occur in the repository inputs. -/
def isWsChar (c : Char) : Bool :=
  c == ' ' || c == '\t' || c == '\n' || c == '\r'

/-- Rust str::trim. -/
def strTrim (s : String) : String :=
  String.mk (((s.toList.dropWhile isWsChar).reverse.dropWhile isWsChar).reverse)

/-- Rust str::is_empty. -/
def strIsEmpty (s : String) : Bool :=
  s.toList.isEmpty

/-- Rust str::starts_with with a string pattern. -/
def strStartsWith (s pat : String) : Bool :=
  pat.toList.isPrefixOf s.toList

/-- Rust str::ends_with with a string pattern. -/
def strEndsWith (s pat : String) : Bool :=
  pat.toList.reverse.isPrefixOf s.toList.reverse

/-- Rust str::len restricted to ASCII, where byte length is char count. -/
def strLength (s : String) : Nat :=
  s.toList.length

/-- Drop the first n characters of a string. -/
def strDrop (s : String) (n : Nat) : String :=
  String.mk (s.toList.drop n)

/-- Keep the first n characters of a string. -/
def strTake (s : String) (n : Nat) : String :=
  String.mk (s.toList.take n)

/-- Fuel-bounded loop for Rust str::trim_start_matches: repeatedly remove a
leading occurrence of the pattern. The fuel (the string length) is enough
for every non-empty pattern. -/
def trimStartMatchesAux (pat : String) : Nat → String → String
| 0, s => s
| Nat.succ fuel, s =>
    if strStartsWith s pat && decide (0 < strLength pat) then
      trimStartMatchesAux pat fuel (strDrop s (strLength pat))
    else s

/-- Rust str::trim_start_matches with a string pattern. -/
def trimStartMatches (pat s : String) : String :=
  trimStartMatchesAux pat (strLength s) s

/-- Fuel-bounded loop for Rust str::trim_end_matches. -/
def trimEndMatchesAux (pat : String) : Nat → String → String
| 0, s => s
| Nat.succ fuel, s =>
    if strEndsWith s pat && decide (0 < strLength pat) then
      trimEndMatchesAux pat fuel (strTake s (strLength s - strLength pat))
    else s

/-- Rust str::trim_end_matches with a string pattern. -/
def trimEndMatches (pat s : String) : String :=
  trimEndMatchesAux pat (strLength s) s

/-- Rust str::trim_matches with a char pattern: remove every leading and
trailing occurrence of the character. -/
def trimMatchesChar (c : Char) (s : String) : String :=
  String.mk (((s.toList.dropWhile (· == c)).reverse.dropWhile (· == c)).reverse)

/-- Rust str::find for the character, as a character index. -/
def findCharPos (c : Char) : List Char → Option Nat
| [] => none
| d :: rest => if d = c then some 0 else (findCharPos c rest).map (· + 1)

/-- HashMap::insert on the embedded string-to-string map: replace the value
of an existing key, or append the binding. -/
def insertKV : List (String × String) → String → String → List (String × String)
| [], n, v => [(n, v)]
| (k, w) :: rest, n, v =>
    if k = n then (n, v) :: rest else (k, w) :: insertKV rest n v

/-- HashMap::get on the embedded string-to-string map. -/
def lookupKV (m : List (String × String)) (n : String) : Option String :=
  (m.find? (fun p => p.1 = n)).map (fun p => p.2)

/-- One iteration of the line loop of ConfigReader::read,
src/config/reader.rs lines 13-40: trim the line; skip empty lines and lines
starting with a hash; then a branch for lines of the form
hash CONFIG_NAME is not set (note: unreachable, since every such line was
already skipped by the hash check above); then split at the first equals
sign into name and value, stripping surrounding double quotes. -/
def processLine (config : List (String × String)) (rawLine : String) : List (String × String) :=
  let line := strTrim rawLine
  if strIsEmpty line || strStartsWith line "#" then config
  else if strStartsWith line "# CONFIG_" && strEndsWith line " is not set" then
    let name := trimEndMatches " is not set" (trimStartMatches "# " line)
    insertKV config name "n"
  else
    match findCharPos '=' line.toList with
    | some pos =>
        let name := strTrim (strTake line pos)
        let value := strTrim (strDrop line (pos + 1))
        let value := trimMatchesChar '"' value
        insertKV config name value
    | none => config

/-- ConfigReader::read, src/config/reader.rs lines 9-43, over the list of
lines of the file content, returning the embedded name-to-value map. -/
def ConfigReader.read (lines : List String) : List (String × String) :=
  lines.foldl processLine []

/-- The line ConfigWriter::write emits for one symbol,
src/config/writer.rs lines 17-33. -/
def writerLine (name : String) (sym : Symbol) : String :=
  match sym.value with
  | some v =>
      if v = "y" || v = "m" then name ++ "=" ++ v
      else if v = "n" then "# " ++ name ++ " is not set"
      else name ++ "=\"" ++ v ++ "\""
  | none => "# " ++ name ++ " is not set"

/-- ConfigWriter::write, src/config/writer.rs lines 10-36, as the list of
lines written to the file: a three-line header, then one line per symbol. -/
def ConfigWriter.write (t : SymbolTable) : List String :=
  ["#", "# Automatically generated file; DO NOT EDIT.", "#"]
  ++ t.symbols.map (fun s => writerLine s.name s)

/-- The clean_name computation of the generator,
src/config/generator.rs lines 19 and 41: name.strip_prefix of CONFIG_
with unwrap_or(name). -/
def cleanName (n : String) : String :=
  if strStartsWith n "CONFIG_" then strDrop n 7 else n

/-- The lines ConfigGenerator::generate_autoconf_h emits for one symbol,
src/config/generator.rs lines 43-59: value y or m gives a define-to-1 line
(modules treated as y), value n or no value gives nothing, any other value
gives a quoted string define. -/
def autoconfLine (sym : Symbol) : List String :=
  match sym.value with
  | some v =>
      if v = "y" then ["#define " ++ cleanName sym.name ++ " 1"]
      else if v = "m" then ["#define " ++ cleanName sym.name ++ " 1"]
      else if v = "n" then []
      else ["#define " ++ cleanName sym.name ++ " \"" ++ v ++ "\""]
  | none => []

/-- ConfigGenerator::generate_autoconf_h, src/config/generator.rs
lines 31-63, as the list of lines written to the file: a four-line header
comment, then the emission for each symbol in table order. -/
def ConfigGenerator.generate_autoconf_h (t : SymbolTable) : List String :=
  ["/*", " * Automatically generated file; DO NOT EDIT.", " */", ""]
  ++ (t.symbols.map autoconfLine).flatten

/-- Modelled from the spec: the depends-on gate of sections 3 and 4.4 (the
expression model and resolution engine live in kconfig files absent from
src/). A symbol optionally depends on one other symbol, and its dependency
condition is satisfied exactly when that other symbol is enabled. -/
def dependsSatisfied (deps : String → Option String) (t : SymbolTable) (n : String) : Bool :=
  match deps n with
  | none => true
  | some m => t.is_enabled m

/-- Concrete table for claim C1: the two Bool symbols of the repository test
test_config_roundtrip, CONFIG_A set to y and CONFIG_B set to n. -/
def c1Tbl : SymbolTable :=
  ⟨[⟨"CONFIG_A", SymbolType.bool, some "y", false⟩, ⟨"CONFIG_B", SymbolType.bool, some "n", false⟩]⟩

/-- Concrete table for claim C3: reachable state with one Bool symbol A set
to y, built through the public API. -/
def c3Tbl : SymbolTable :=
  runOps SymbolTable.new [TableOp.add "A" SymbolType.bool, TableOp.set "A" "y"]

/-- Concrete table for claim C4: two Bool symbols X (currently y) and Y
(currently n), standing for the two members of a choice group. -/
def c4Tbl : SymbolTable :=
  ⟨[⟨"X", SymbolType.bool, some "y", false⟩, ⟨"Y", SymbolType.bool, some "n", false⟩]⟩

/-- Concrete dependency map for claim C6: symbol A depends on symbol B. -/
def c6Deps : String → Option String := fun n => if n = "A" then some "B" else none

/-- Concrete table for claim C6: A holds stored value y while its
dependency B is n, so the depends-on condition of A evaluates to No. -/
def c6Tbl : SymbolTable :=
  ⟨[⟨"A", SymbolType.bool, some "y", false⟩, ⟨"B", SymbolType.bool, some "n", false⟩]⟩

/-- Concrete table for claim C7: the symbol A first registered as Bool. -/
def c7Tbl : SymbolTable := SymbolTable.new.add_symbol "A" SymbolType.bool

/-- Concrete table for claim C8: one symbol A set to y; B is absent. -/
def c8Tbl : SymbolTable := ⟨[⟨"A", SymbolType.bool, some "y", false⟩]⟩

/-- Concrete table for claim C10: one Bool symbol with the CONFIG_ prefix,
set to y. -/
def c10Tbl : SymbolTable := ⟨[⟨"CONFIG_FOO", SymbolType.bool, some "y", false⟩]⟩

/-! Supporting lemmas about the embedded table operations. -/

theorem updateValue_id (l : List Symbol) (n v : String) (h : ∀ s ∈ l, s.name ≠ n) :
    updateValue n v l = l := by
  induction l with
  | nil => rfl
  | cons s rest ih =>
      have hs : s.name ≠ n := h s (List.mem_cons_self s rest)
      rw [updateValue, if_neg hs, ih (fun x hx => h x (List.mem_cons_of_mem s hx))]

theorem find?_updateValue_self (l : List Symbol) (n v : String) (sym : Symbol)
    (h : l.find? (fun s => s.name = n) = some sym) :
    (updateValue n v l).find? (fun s => s.name = n)
      = some ⟨sym.name, sym.symbol_type, some v, sym.is_choice⟩ := by
  induction l with
  | nil => simp at h
  | cons s rest ih =>
      by_cases hs : s.name = n
      · have hsym : s = sym := by simpa [List.find?, hs] using h
        subst hsym
        simp [updateValue, hs, List.find?]
      · have h2 : rest.find? (fun s => s.name = n) = some sym := by
          simpa [List.find?, hs] using h
        simp [updateValue, hs, List.find?, ih h2]

theorem find?_updateValue_ne (l : List Symbol) (n v m : String) (hm : m ≠ n) :
    (updateValue n v l).find? (fun s => s.name = m) = l.find? (fun s => s.name = m) := by
  induction l with
  | nil => rfl
  | cons s rest ih =>
      by_cases hs : s.name = n
      · have hsm : ¬ (s.name = m) := by
          rw [hs]; exact fun hh => hm hh.symm
        rw [updateValue, if_pos hs]
        simp [List.find?, hsm]
      · rw [updateValue, if_neg hs]
        by_cases hsm : s.name = m
        · simp [List.find?, hsm]
        · simp [List.find?, hsm, ih]

theorem mem_updateValue {l : List Symbol} {n v : String} {s : Symbol}
    (h : s ∈ updateValue n v l) :
    s ∈ l ∨ ∃ s1, s1 ∈ l ∧ s1.name = n
      ∧ s = ⟨s1.name, s1.symbol_type, some v, s1.is_choice⟩ := by
  induction l with
  | nil => simp [updateValue] at h
  | cons a rest ih =>
      by_cases ha : a.name = n
      · rw [updateValue, if_pos ha] at h
        rcases List.mem_cons.mp h with h1 | h1
        · exact Or.inr ⟨a, List.mem_cons_self a rest, ha, h1⟩
        · exact Or.inl (List.mem_cons_of_mem a h1)
      · rw [updateValue, if_neg ha] at h
        rcases List.mem_cons.mp h with h1 | h1
        · exact Or.inl (h1 ▸ List.mem_cons_self a rest)
        · rcases ih h1 with h2 | ⟨s1, hs1, hn, he⟩
          · exact Or.inl (List.mem_cons_of_mem a h2)
          · exact Or.inr ⟨s1, List.mem_cons_of_mem a hs1, hn, he⟩

theorem mem_add_symbol {t : SymbolTable} {n : String} {ty : SymbolType} {s : Symbol}
    (h : s ∈ (t.add_symbol n ty).symbols) :
    s ∈ t.symbols ∨ s = ⟨n, ty, none, false⟩ := by
  unfold SymbolTable.add_symbol at h
  by_cases hp : (t.lookup n).isSome
  · rw [if_pos hp] at h
    exact Or.inl h
  · rw [if_neg hp] at h
    simpa using h

theorem add_symbol_present {t : SymbolTable} {n : String} (ty : SymbolType)
    (h : (t.lookup n).isSome) : t.add_symbol n ty = t := by
  unfold SymbolTable.add_symbol
  rw [if_pos h]

theorem runOps_value_from_set (ops : List TableOp) :
    ∀ (t : SymbolTable) (s : Symbol) (v : String),
      s ∈ (runOps t ops).symbols → s.value = some v →
      TableOp.set s.name v ∈ ops
        ∨ ∃ s0, s0 ∈ t.symbols ∧ s0.name = s.name ∧ s0.value = some v := by
  induction ops with
  | nil =>
      intro t s v h hv
      exact Or.inr ⟨s, h, rfl, hv⟩
  | cons op rest ih =>
      intro t s v h hv
      have h' : s ∈ (runOps (applyOp t op) rest).symbols := h
      rcases ih (applyOp t op) s v h' hv with hin | ⟨s0, hs0, hname, hval⟩
      · exact Or.inl (List.mem_cons_of_mem op hin)
      · cases op with
        | add n ty =>
            rcases mem_add_symbol hs0 with h2 | h2
            · exact Or.inr ⟨s0, h2, hname, hval⟩
            · subst h2
              simp at hval
        | set n w =>
            rcases mem_updateValue hs0 with h2 | ⟨s1, hs1, hn1, he⟩
            · exact Or.inr ⟨s0, h2, hname, hval⟩
            · subst he
              have hwv : w = v := by simpa using hval
              subst hwv
              have hsn : s.name = n := by
                rw [← hname, ← hn1]
              left
              rw [hsn]
              exact List.mem_cons_self _ rest

/-! Claim theorems. -/

/-- Claim C1 (code bug, evaluation at the failing input): for the table of
the repository test test_config_roundtrip, with CONFIG_A Bool y and
CONFIG_B Bool n, writing with ConfigWriter::write and re-ingesting with
ConfigReader::read loses CONFIG_B entirely: the writer emits the line
hash CONFIG_B is not set, and the reader skips every line starting with a
hash before its not-set handler can run, so the read-back map has no
CONFIG_B entry instead of the stored n. -/
theorem roundtrip_drops_not_set :
    SymbolTable.get_value c1Tbl "CONFIG_B" = some "n"
    ∧ lookupKV (ConfigReader.read (ConfigWriter.write c1Tbl)) "CONFIG_B" = none
    ∧ lookupKV (ConfigReader.read (ConfigWriter.write c1Tbl)) "CONFIG_A" = some "y" := by
  decide

/-- Claim C2 (code bug, evaluation at the failing input): an input containing
the line hash CONFIG_FOO is not set produces no CONFIG_FOO entry at all: the
comment filter of ConfigReader::read discards every line starting with a
hash, making the dedicated not-set branch below it unreachable, so the
overlay mapping is empty rather than binding CONFIG_FOO to n. -/
theorem read_ignores_not_set_lines :
    ConfigReader.read ["# CONFIG_FOO is not set"] = []
    ∧ lookupKV (ConfigReader.read ["CONFIG_BAR=y", "# CONFIG_FOO is not set"]) "CONFIG_FOO"
        = none := by
  decide

/-- Claim C3 counterexample: setting the string 42 on the Bool symbol A does
not fail with a TypeMismatch error and does not leave the table unchanged —
set_value stores the mismatched value, so the table is mutated. -/
theorem set_value_typemismatch_cex :
    (c3Tbl.set_value "A" "42").get_value "A" = some "42"
    ∧ c3Tbl.set_value "A" "42" ≠ c3Tbl := by
  decide

/-- Claim C3 (amended): set_value performs no type validation and cannot
fail: on a registered name it unconditionally stores the given string as the
value, whatever its variant, changing exactly that symbol and leaving the
binding of every other name untouched. -/
theorem set_value_no_validation (t : SymbolTable) (n v : String) (sym : Symbol)
    (h : t.lookup n = some sym) :
    (t.set_value n v).lookup n = some ⟨sym.name, sym.symbol_type, some v, sym.is_choice⟩
    ∧ ∀ m, m ≠ n → (t.set_value n v).lookup m = t.lookup m :=
  ⟨find?_updateValue_self t.symbols n v sym h,
   fun m hm => find?_updateValue_ne t.symbols n v m hm⟩

/-- Witness for the amended claim C3 at a concrete input. -/
theorem set_value_no_validation_witness :
    (c3Tbl.set_value "A" "42").lookup "A"
      = some ⟨"A", SymbolType.bool, some "42", false⟩ :=
  (set_value_no_validation c3Tbl "A" "42" ⟨"A", SymbolType.bool, some "y", false⟩ (by decide)).1

/-- Claim C4 counterexample: with the choice members X (currently y) and Y
(currently n), setting Y to Yes leaves X at y as well, so two members are
Yes at once — the set operation does not force siblings to No and the
exactly-one property fails. -/
theorem choice_exclusivity_cex :
    (c4Tbl.set_value "Y" "y").get_value "Y" = some "y"
    ∧ (c4Tbl.set_value "Y" "y").get_value "X" = some "y" := by
  decide

/-- Claim C4 (amended): setting a choice member to Yes updates only that
member: it becomes y, and the value of every other symbol — in particular
every sibling member of the choice — is unchanged; no sibling is forced to
No. -/
theorem set_value_yes_only_target (t : SymbolTable) (n m : String) (sym : Symbol)
    (h : t.lookup n = some sym) (hm : m ≠ n) :
    (t.set_value n "y").get_value n = some "y"
    ∧ (t.set_value n "y").get_value m = t.get_value m := by
  constructor
  · have h1 := find?_updateValue_self t.symbols n "y" sym h
    simp [SymbolTable.get_value, SymbolTable.lookup, SymbolTable.set_value, h1]
  · have h2 := find?_updateValue_ne t.symbols n "y" m hm
    simp [SymbolTable.get_value, SymbolTable.lookup, SymbolTable.set_value, h2]

/-- Witness for the amended claim C4 at a concrete input. -/
theorem set_value_yes_only_target_witness :
    (c4Tbl.set_value "Y" "y").get_value "X" = c4Tbl.get_value "X" :=
  (set_value_yes_only_target c4Tbl "Y" "X" ⟨"Y", SymbolType.bool, some "n", false⟩
    (by decide) (by decide)).2

/-- Claim C5 counterexample: the state reached from the empty table by
add_symbol A Bool followed by set_value A hello holds the value hello on a
Bool symbol, which is neither y nor n — the stored value variant does not
match the declared type. -/
theorem value_type_invariant_cex :
    (runOps SymbolTable.new [TableOp.add "A" SymbolType.bool, TableOp.set "A" "hello"]).lookup "A"
      = some ⟨"A", SymbolType.bool, some "hello", false⟩
    ∧ ("hello" : String) ≠ "y" ∧ ("hello" : String) ≠ "n" := by
  decide

/-- Claim C5 (amended): the table enforces no relation between a stored
value and the declared type; what holds at every state reachable from the
empty table is that every symbol whose value is set holds, verbatim, the
string passed to some set_value call on that symbol name in the operation
sequence. -/
theorem reachable_value_from_set (ops : List TableOp) (s : Symbol) (v : String)
    (h : s ∈ (runOps SymbolTable.new ops).symbols) (hv : s.value = some v) :
    TableOp.set s.name v ∈ ops := by
  rcases runOps_value_from_set ops SymbolTable.new s v h hv with h1 | ⟨s0, hs0, _, _⟩
  · exact h1
  · simp [SymbolTable.new] at hs0

/-- Witness for the amended claim C5 at a concrete input. -/
theorem reachable_value_from_set_witness :
    TableOp.set "A" "y" ∈ [TableOp.add "A" SymbolType.bool, TableOp.set "A" "y"] :=
  reachable_value_from_set [TableOp.add "A" SymbolType.bool, TableOp.set "A" "y"]
    ⟨"A", SymbolType.bool, some "y", false⟩ "y" (by decide) rfl

/-- Claim C6 counterexample: symbol A depends on B, B is n, so the
depends-on condition of A evaluates to No; yet get_value returns the stored
user value y for A, not the Bool zero value n — no visibility gating is
applied. -/
theorem depends_gating_cex :
    dependsSatisfied c6Deps c6Tbl "A" = false
    ∧ c6Tbl.get_value "A" = some "y"
    ∧ c6Tbl.get_value "A" ≠ some "n" := by
  decide

/-- Claim C6 (amended): get_value consults no dependency information: a
registered symbol with a stored value has that value returned unchanged,
both before and after any mutation of any other symbol (such as the symbol
it depends on), so invisibility never masks the value to the type zero and
the stored user value is never lost. -/
theorem get_value_unconditional (t : SymbolTable) (n b w : String) (sym : Symbol) (v : String)
    (h : t.lookup n = some sym) (hv : sym.value = some v) (hb : n ≠ b) :
    t.get_value n = some v ∧ (t.set_value b w).get_value n = some v := by
  constructor
  · simp [SymbolTable.get_value, h, hv]
  · have h2 := find?_updateValue_ne t.symbols b w n hb
    simp [SymbolTable.get_value, SymbolTable.lookup, SymbolTable.set_value, h2]
    simp [SymbolTable.lookup] at h
    simp [h, hv]

/-- Witness for the amended claim C6 at a concrete input. -/
theorem get_value_unconditional_witness :
    (c6Tbl.set_value "B" "y").get_value "A" = some "y" :=
  (get_value_unconditional c6Tbl "A" "B" "y" ⟨"A", SymbolType.bool, some "y", false⟩ "y"
    (by decide) rfl (by decide)).2

/-- Claim C7: once a name is registered — with the symbol record sym, whose
type is the one given at first registration and whose value is whatever is
currently stored — any further sequence of add_symbol calls on that name
leaves the whole table unchanged, so the declared type remains the first
registration and the stored value is untouched. -/
theorem add_symbol_first_type_wins (t : SymbolTable) (n : String) (sym : Symbol)
    (tys : List SymbolType) (h : t.lookup n = some sym) :
    tys.foldl (fun s ty => s.add_symbol n ty) t = t
    ∧ (tys.foldl (fun s ty => s.add_symbol n ty) t).lookup n = some sym := by
  have hsome : (t.lookup n).isSome := by rw [h]; rfl
  have main : tys.foldl (fun s ty => s.add_symbol n ty) t = t := by
    induction tys with
    | nil => rfl
    | cons ty rest ih =>
        show rest.foldl (fun s ty => s.add_symbol n ty) (t.add_symbol n ty) = t
        rw [add_symbol_present ty hsome]
        exact ih
  exact ⟨main, by rw [main, h]⟩

/-- Witness for claim C7 at a concrete input: re-registering A as Int and
then Hex after its first registration as Bool changes nothing. -/
theorem add_symbol_first_type_wins_witness :
    [SymbolType.int, SymbolType.hex].foldl (fun s ty => s.add_symbol "A" ty) c7Tbl = c7Tbl :=
  (add_symbol_first_type_wins c7Tbl "A" ⟨"A", SymbolType.bool, none, false⟩
    [SymbolType.int, SymbolType.hex] (by decide)).1

/-- Claim C8: set_value on a name that is not registered is a silent no-op:
it returns without error and the table — key set, types and all stored
values — is exactly the one before the call. -/
theorem set_value_absent_noop (t : SymbolTable) (n v : String) (h : t.lookup n = none) :
    t.set_value n v = t := by
  have h' : ∀ s ∈ t.symbols, s.name ≠ n := by
    intro s hs
    have := List.find?_eq_none.mp h s hs
    simpa using this
  show SymbolTable.mk (updateValue n v t.symbols) = t
  rw [updateValue_id t.symbols n v h']

/-- Witness for claim C8 at a concrete input: setting the absent name B
leaves the one-symbol table untouched. -/
theorem set_value_absent_noop_witness : c8Tbl.set_value "B" "y" = c8Tbl :=
  set_value_absent_noop c8Tbl "B" "y" (by decide)

/-- Claim C9: is_enabled is total and returns true exactly when a symbol
with the given name exists, its value is set, and that value is y or m;
for an absent symbol or an unset value it returns false. -/
theorem is_enabled_iff (t : SymbolTable) (n : String) :
    t.is_enabled n = true
      ↔ ∃ sym, t.lookup n = some sym ∧ (sym.value = some "y" ∨ sym.value = some "m") := by
  unfold SymbolTable.is_enabled
  rcases h : t.lookup n with _ | sym
  · simp [h]
  · rcases hv : sym.value with _ | v
    · simp [hv]
    · simp [hv]

/-- Claim C10: generate_autoconf_h emits, for every symbol whose value is y
or m, the line defining to 1 the symbol name with any leading CONFIG_
prefix stripped (m treated exactly like y), and emits nothing for a symbol
whose value is n or unset. -/
theorem generate_autoconf_h_defines (t : SymbolTable) (sym : Symbol) (h : sym ∈ t.symbols) :
    ((sym.value = some "y" ∨ sym.value = some "m") →
      ("#define " ++ cleanName sym.name ++ " 1") ∈ ConfigGenerator.generate_autoconf_h t)
    ∧ ((sym.value = some "n" ∨ sym.value = none) → autoconfLine sym = []) := by
  constructor
  · intro hv
    unfold ConfigGenerator.generate_autoconf_h
    refine List.mem_append_right _ ?_
    rw [List.mem_flatten]
    refine ⟨autoconfLine sym, List.mem_map_of_mem _ h, ?_⟩
    rcases hv with hv | hv <;> simp [autoconfLine, hv]
  · intro hv
    rcases hv with hv | hv <;> simp [autoconfLine, hv]

/-- Witness for claim C10 at a concrete input: the CONFIG_FOO Bool symbol
set to y yields the define line for FOO. -/
theorem generate_autoconf_h_defines_witness :
    ("#define " ++ cleanName "CONFIG_FOO" ++ " 1")
      ∈ ConfigGenerator.generate_autoconf_h c10Tbl :=
  (generate_autoconf_h_defines c10Tbl ⟨"CONFIG_FOO", SymbolType.bool, some "y", false⟩
    (by decide)).1 (Or.inl rfl)

end RustKbuild
